import Mathlib

/-!
# Verification of the Policy Compliance Analyzer

A shallow embedding of `src/tools/custom_analysis_tool.py` (class
`PolicyAnalysisTool`).  Document text is modelled as `List Char` (`Str`);
Python's `str.lower`, `str.strip`, substring containment (`in`), and the
fixed regular expressions of the tool are translated into executable Lean
functions over `Str`.  The analysis record, the report formatter, and the
policy comparator are translated definition-by-definition from the source.

Modelling conventions:
* character classes (`\d`, `\w`, `\s`) are modelled at the ASCII level;
* `datetime.now()` timestamps are passed in as an explicit parameter;
* the (hash-order dependent) `list(set(...))` conversions of the comparator
  are modelled with `List.dedup`, which fixes one deterministic order; the
  theorems about the comparator only use the underlying sets.
-/

set_option maxRecDepth 100000

namespace PolicyAnalysis

/-- Document text: Python `str` modelled as a list of characters. -/
abbrev Str := List Char

/-- Coerce a Lean string literal into the `Str` model. -/
def str (s : String) : Str := s.data

/-- ASCII lower-casing of one character (Python `str.lower` on ASCII input). -/
def lowerChar (c : Char) : Char :=
  if 'A' ≤ c ∧ c ≤ 'Z' then Char.ofNat (c.toNat + 32) else c

/-- Python `str.lower` applied to a whole string. -/
def lowerS (s : Str) : Str := s.map lowerChar

/-- ASCII whitespace, the characters stripped by Python `str.strip`
and matched by `\s`. -/
def isSpaceChar (c : Char) : Bool :=
  c = ' ' || c = '\t' || c = '\n' || c = '\x0d' || c = '\x0b' || c = '\x0c'

/-- ASCII decimal digit (regex `\d`). -/
def isDigit (c : Char) : Bool := '0' ≤ c && c ≤ '9'

/-- ASCII word character (regex `\w`). -/
def isWordChar (c : Char) : Bool :=
  isDigit c || ('a' ≤ c && c ≤ 'z') || ('A' ≤ c && c ≤ 'Z') || c = '_'

/-- Remove leading whitespace. -/
def dropSpaces : Str → Str
  | [] => []
  | c :: t => if isSpaceChar c then dropSpaces t else c :: t

/-- Python `str.strip`: drop whitespace from both ends. -/
def stripStr (s : Str) : Str := ((dropSpaces s).reverse |> dropSpaces).reverse

/-- Sentence-terminator characters of the splitting regex `[.!?]+`. -/
def isTerm (c : Char) : Bool := c = '.' || c = '!' || c = '?'

/-- Split a string at every character satisfying `p`; the pieces keep their
order and exclude the delimiter characters (as `re.split` on a character
class does, before empty pieces are discarded). -/
def splitOnPred (p : Char → Bool) : Str → List Str
  | [] => [[]]
  | c :: rest =>
    match splitOnPred p rest with
    | [] => [[]]
    | s :: ss => if p c then [] :: s :: ss else (c :: s) :: ss

/-- `PolicyAnalysisTool._split_into_sentences`: split on `[.!?]+`, strip each
piece, keep the non-empty ones.  (Splitting on single terminator characters
and discarding empties is equivalent to splitting on maximal runs.) -/
def splitSentences (text : Str) : List Str :=
  ((splitOnPred isTerm text).map stripStr).filter (· ≠ [])

/-- Is `pat` a prefix of `s`? -/
def isPrefixB : Str → Str → Bool
  | [], _ => true
  | _ :: _, [] => false
  | a :: as, b :: bs => a = b && isPrefixB as bs

/-- Python substring containment `pat in hay`. -/
def substrB (hay pat : Str) : Bool :=
  match hay with
  | [] => isPrefixB pat []
  | c :: t => isPrefixB pat (c :: t) || substrB t pat

/-- `self.compliance_keywords["mandatory"]`. -/
def mandatoryKw : List Str :=
  [str "must", str "shall", str "required", str "mandatory",
   str "obligated", str "compelled"]

/-- `self.compliance_keywords["optional"]`. -/
def optionalKw : List Str :=
  [str "may", str "can", str "could", str "optional",
   str "permitted", str "allowed"]

/-- `self.compliance_keywords["prohibited"]`. -/
def prohibitedKw : List Str :=
  [str "shall not", str "must not", str "cannot", str "prohibited",
   str "forbidden", str "banned"]

/-- `self.compliance_keywords["penalties"]`. -/
def penaltyKw : List Str :=
  [str "penalty", str "fine", str "violation", str "sanctions",
   str "enforcement", str "liability"]

/-- `any(keyword in sentence_lower for keyword in kws)`. -/
def anyKw (kws : List Str) (s : Str) : Bool := kws.any (fun k => substrB s k)

/-- If `pat` is a prefix of `s`, return the remaining suffix. -/
def dropPrefixB : Str → Str → Option Str
  | [], s => some s
  | _ :: _, [] => none
  | a :: as, b :: bs => if b = a then dropPrefixB as bs else none

/-- Case-insensitive `dropPrefixB` (the pattern is given in lower case). -/
def dropPrefixCI : Str → Str → Option Str
  | [], s => some s
  | _ :: _, [] => none
  | a :: as, b :: bs => if lowerChar b = a then dropPrefixCI as bs else none

/-- The unit alternation `days?|months?|years?` of the deadline pattern:
try each alternative in order; the optional `s` is taken greedily. -/
def matchUnit (s : Str) : Option Str :=
  match dropPrefixB (str "day") s with
  | some r =>
    match r with
    | c :: _ => if c = 's' then some (str "days") else some (str "day")
    | [] => some (str "day")
  | none =>
  match dropPrefixB (str "month") s with
  | some r =>
    match r with
    | c :: _ => if c = 's' then some (str "months") else some (str "month")
    | [] => some (str "month")
  | none =>
  match dropPrefixB (str "year") s with
  | some r =>
    match r with
    | c :: _ => if c = 's' then some (str "years") else some (str "year")
    | [] => some (str "year")
  | none => none

/-- Try the deadline pattern `within\s+(\d+)\s+(days?|months?|years?)`
anchored at the start of `s`; on success return the two capture groups.
Maximal munch is exact here because the character classes of adjacent
pattern pieces are disjoint. -/
def matchDeadlineAt (s : Str) : Option (Str × Str) :=
  match dropPrefixB (str "within") s with
  | none => none
  | some r1 =>
    if (r1.takeWhile isSpaceChar).isEmpty then none else
    let r2 := r1.dropWhile isSpaceChar
    let num := r2.takeWhile isDigit
    if num.isEmpty then none else
    let r3 := r2.dropWhile isDigit
    if (r3.takeWhile isSpaceChar).isEmpty then none else
    let r4 := r3.dropWhile isSpaceChar
    match matchUnit r4 with
    | some u => some (num, u)
    | none => none

/-- `re.search` for the deadline pattern: first match, scanning left to
right. -/
def searchDeadline : Str → Option (Str × Str)
  | [] => none
  | c :: rest =>
    match matchDeadlineAt (c :: rest) with
    | some m => some m
    | none => searchDeadline rest

/-- Try the percentage pattern `(\d+(?:\.\d+)?)\s*%` anchored at the start
of `s`; on success return the capture group and the rest of the string after
the full match.  The greedy quantifiers are exact maximal munch here since
no backtracking can rescue a failed continuation. -/
def matchPercentAt (s : Str) : Option (Str × Str) :=
  let intPart := s.takeWhile isDigit
  if intPart.isEmpty then none else
  let r1 := s.dropWhile isDigit
  let fr :=
    match r1 with
    | c :: r1' =>
      if c = '.' ∧ ¬(r1'.takeWhile isDigit).isEmpty then
        ('.' :: r1'.takeWhile isDigit, r1'.dropWhile isDigit)
      else (([] : Str), r1)
    | [] => (([] : Str), r1)
  let r3 := fr.2.dropWhile isSpaceChar
  match r3 with
  | c :: r4 => if c = '%' then some (intPart ++ fr.1, r4) else none
  | [] => none

/-- The `(,\d{3})*` repetition of the dollar pattern: greedily consume
groups of a comma followed by exactly three digits; return the consumed
prefix and the rest. -/
def matchCommaGroups (s : Str) : Str × Str :=
  match s with
  | c :: a :: b :: d :: rest =>
    if c = ',' ∧ isDigit a ∧ isDigit b ∧ isDigit d then
      let gr := matchCommaGroups rest
      (c :: a :: b :: d :: gr.1, gr.2)
    else (([] : Str), s)
  | _ => (([] : Str), s)

/-- Try the dollar pattern `\$\s*(\d+(?:,\d{3})*(?:\.\d{2})?)` anchored at
the start of `s`; on success return the capture group (without the dollar
sign) and the rest after the full match. -/
def matchDollarAt (s : Str) : Option (Str × Str) :=
  match s with
  | c :: r0 =>
    if c = '$' then
      let r1 := r0.dropWhile isSpaceChar
      let intPart := r1.takeWhile isDigit
      if intPart.isEmpty then none else
      let gr := matchCommaGroups (r1.dropWhile isDigit)
      let ce :=
        match gr.2 with
        | d :: a :: b :: rest =>
          if d = '.' ∧ isDigit a ∧ isDigit b then (([d, a, b] : Str), rest)
          else (([] : Str), gr.2)
        | _ => (([] : Str), gr.2)
      some (intPart ++ gr.1 ++ ce.1, ce.2)
    else none
  | [] => none

/-- The tail `,?\s+\d{4}` of the effective-date pattern, with `acc` the part
of the capture group already consumed.  Returns the full capture group and
the rest of the string after the match. -/
def dateTail (acc : Str) (r : Str) : Option (Str × Str) :=
  let co :=
    match r with
    | c :: rr => if c = ',' then (([c] : Str), rr) else (([] : Str), r)
    | [] => (([] : Str), r)
  let sp2 := co.2.takeWhile isSpaceChar
  if sp2.isEmpty then none else
  match co.2.dropWhile isSpaceChar with
  | a :: b :: c :: d :: rest =>
    if isDigit a ∧ isDigit b ∧ isDigit c ∧ isDigit d then
      some (acc ++ co.1 ++ sp2 ++ [a, b, c, d], rest)
    else none
  | _ => none

/-- The date body `(\w+\s+\d{1,2},?\s+\d{4})` of the effective-date
pattern: `\d{1,2}` is greedy, so two digits are tried before one. -/
def matchDateBody (s : Str) : Option (Str × Str) :=
  let w := s.takeWhile isWordChar
  if w.isEmpty then none else
  let r1 := s.dropWhile isWordChar
  let sp1 := r1.takeWhile isSpaceChar
  if sp1.isEmpty then none else
  match r1.dropWhile isSpaceChar with
  | a :: rest =>
    if isDigit a then
      match rest with
      | b :: rest' =>
        if isDigit b then
          match dateTail (w ++ sp1 ++ [a, b]) rest' with
          | some res => some res
          | none => dateTail (w ++ sp1 ++ [a]) (b :: rest')
        else dateTail (w ++ sp1 ++ [a]) rest
      | [] => dateTail (w ++ sp1 ++ [a]) []
    else none
  | [] => none

/-- Try the effective-date pattern
`effective\s+(on\s+)?(\w+\s+\d{1,2},?\s+\d{4})` (case-insensitive) anchored
at the start of `s`; on success return the second capture group (the date)
and the rest after the full match.  The optional `on\s+` group backtracks:
if the date body fails after consuming it, the body is retried without. -/
def matchEffectiveAt (s : Str) : Option (Str × Str) :=
  match dropPrefixCI (str "effective") s with
  | none => none
  | some r1 =>
    if (r1.takeWhile isSpaceChar).isEmpty then none else
    let r2 := r1.dropWhile isSpaceChar
    let withOn :=
      match dropPrefixCI (str "on") r2 with
      | none => none
      | some r3 =>
        if (r3.takeWhile isSpaceChar).isEmpty then none
        else matchDateBody (r3.dropWhile isSpaceChar)
    match withOn with
    | some res => some res
    | none => matchDateBody r2

/-- `re.findall` driver: scan left to right; at a match emit the capture and
resume after the full match, otherwise advance one character.  Each matcher
consumes at least one character on success, so fuel equal to the string
length is exact. -/
def scanAllAux (matcher : Str → Option (Str × Str)) : Nat → Str → List Str
  | 0, _ => []
  | _ + 1, [] => []
  | fuel + 1, c :: rest =>
    match matcher (c :: rest) with
    | some (cap, r) => cap :: scanAllAux matcher fuel r
    | none => scanAllAux matcher fuel rest

/-- `re.findall pattern s` for one of the three metric matchers. -/
def scanAll (matcher : Str → Option (Str × Str)) (s : Str) : List Str :=
  scanAllAux matcher s.length s

/-- The metric bundle `key_metrics`.  In the source the dictionary holds a
key only when its list is non-empty; here the three lists are always
present and emptiness is tested where the source tests key presence. -/
structure Metrics where
  percentages : List Str
  dollar_amounts : List Str
  effective_dates : List Str
deriving DecidableEq

/-- `PolicyAnalysisTool._extract_metrics`: scan the whole document text for
the three numeric patterns; percentages are rendered as `f"{p}%"`, dollar
amounts as `f"${amount}"`, effective dates keep the second capture group. -/
def extractMetrics (text : Str) : Metrics :=
  { percentages := (scanAll matchPercentAt text).map (fun p => p ++ ['%']),
    dollar_amounts := (scanAll matchDollarAt text).map (fun a => '$' :: a),
    effective_dates := scanAll matchEffectiveAt text }

/-- One entry of `analysis["deadlines"]`. -/
structure DeadlineMatch where
  text : Str
  duration : Str
deriving DecidableEq

/-- The `analysis` dictionary built by `analyze_compliance_requirements`. -/
structure Analysis where
  document_title : Str
  analysis_date : Str
  mandatory_requirements : List Str
  optional_provisions : List Str
  prohibited_actions : List Str
  deadlines : List DeadlineMatch
  penalties : List Str
  key_metrics : Metrics
deriving DecidableEq

/-- The freshly initialised `analysis` dictionary (timestamp passed in for
`datetime.now().strftime(...)`). -/
def initAnalysis (title ts : Str) : Analysis :=
  { document_title := title, analysis_date := ts,
    mandatory_requirements := [], optional_provisions := [],
    prohibited_actions := [], deadlines := [], penalties := [],
    key_metrics := ⟨[], [], []⟩ }

/-- The body of the per-sentence loop of `analyze_compliance_requirements`:
the `if`/`elif` keyword classification, then the deadline search, then the
penalty check. -/
def processSentence (a : Analysis) (sentence : Str) : Analysis :=
  let sl := lowerS sentence
  let a1 :=
    if anyKw mandatoryKw sl then
      { a with mandatory_requirements :=
          a.mandatory_requirements ++ [stripStr sentence] }
    else if anyKw optionalKw sl then
      { a with optional_provisions :=
          a.optional_provisions ++ [stripStr sentence] }
    else if anyKw prohibitedKw sl then
      { a with prohibited_actions :=
          a.prohibited_actions ++ [stripStr sentence] }
    else a
  let a2 :=
    match searchDeadline sl with
    | some du =>
      { a1 with deadlines :=
          a1.deadlines ++ [⟨stripStr sentence, du.1 ++ ' ' :: du.2⟩] }
    | none => a1
  if anyKw penaltyKw sl then
    { a2 with penalties := a2.penalties ++ [stripStr sentence] }
  else a2

/-- `analyze_compliance_requirements` up to (but not including) the final
formatting step: the fully populated `analysis` record. -/
def analyzeRecord (text title ts : Str) : Analysis :=
  let a := (splitSentences text).foldl processSentence (initAnalysis title ts)
  { a with key_metrics := extractMetrics text }

/-- Python `str(n)` for a natural number. -/
def natToStr (n : Nat) : Str := (toString n).data

/-- `req[:200] + ('...' if len(req) > 200 else '')`: truncate an item to a
character budget, appending an ellipsis when it was truncated. -/
def truncItem (budget : Nat) (s : Str) : Str :=
  s.take budget ++ (if budget < s.length then str "..." else [])

/-- The numbered item lines of a list section
(`for i, req in enumerate(items, 1): f"{i}. {...}\n"`). -/
def numberedItems (budget : Nat) : Nat → List Str → Str
  | _, [] => []
  | i, x :: xs =>
    natToStr i ++ str ". " ++ truncItem budget x ++ ['\n'] ++
      numberedItems budget (i + 1) xs

/-- The numbered deadline lines
(`f"{i}. {deadline['duration']} - {deadline['text'][:150]}..."`). -/
def numberedDeadlines : Nat → List DeadlineMatch → Str
  | _, [] => []
  | i, d :: ds =>
    natToStr i ++ str ". " ++ d.duration ++ str " - " ++ truncItem 150 d.text
      ++ ['\n'] ++ numberedDeadlines (i + 1) ds

/-- The MANDATORY REQUIREMENTS section: header with the full count, the
first five items, an `... and K more` line when more than five exist, and a
blank line. -/
def mandatorySection (l : List Str) : Str :=
  if l.isEmpty then [] else
    str "**🔴 MANDATORY REQUIREMENTS (" ++ natToStr l.length ++ str "):**\n"
      ++ numberedItems 200 1 (l.take 5)
      ++ (if 5 < l.length then
            str "... and " ++ natToStr (l.length - 5) ++ str " more\n"
          else [])
      ++ ['\n']

/-- The CRITICAL DEADLINES section: header with the full count and the
first three deadlines. -/
def deadlinesSection (l : List DeadlineMatch) : Str :=
  if l.isEmpty then [] else
    str "**⏰ CRITICAL DEADLINES (" ++ natToStr l.length ++ str "):**\n"
      ++ numberedDeadlines 1 (l.take 3) ++ ['\n']

/-- A section that shows its header with the full count and the first three
items (used for prohibited actions, penalties and optional provisions). -/
def cappedSection (label : Str) (l : List Str) : Str :=
  if l.isEmpty then [] else
    label ++ str " (" ++ natToStr l.length ++ str "):**\n"
      ++ numberedItems 200 1 (l.take 3) ++ ['\n']

/-- `', '.join(values)`. -/
def joinComma : List Str → Str
  | [] => []
  | [x] => x
  | x :: xs => x ++ str ", " ++ joinComma xs

/-- One `- {Metric Type}: {', '.join(values[:5])}\n` line, emitted only when
the value list is non-empty. -/
def metricLine (label : Str) (values : List Str) : Str :=
  if values.isEmpty then [] else
    str "- " ++ label ++ str ": " ++ joinComma (values.take 5) ++ ['\n']

/-- The KEY METRICS section; the dictionary iterates in insertion order
(percentages, dollar amounts, effective dates) and is rendered only when it
is non-empty. -/
def metricsSection (m : Metrics) : Str :=
  if m.percentages.isEmpty ∧ m.dollar_amounts.isEmpty ∧
      m.effective_dates.isEmpty then [] else
    str "**📊 KEY METRICS:**\n"
      ++ metricLine (str "Percentages") m.percentages
      ++ metricLine (str "Dollar Amounts") m.dollar_amounts
      ++ metricLine (str "Effective Dates") m.effective_dates
      ++ ['\n']

/-- The COMPLIANCE SUMMARY section with the three full counts and, when
there is at least one mandatory requirement or deadline, the advisory
recommendation line. -/
def summarySection (a : Analysis) : Str :=
  str "**📋 COMPLIANCE SUMMARY:**\n- "
    ++ natToStr a.mandatory_requirements.length
    ++ str " mandatory requirements identified\n- "
    ++ natToStr a.deadlines.length
    ++ str " critical deadlines found\n- "
    ++ natToStr a.penalties.length
    ++ str " penalty provisions noted\n"
    ++ (if 0 < a.mandatory_requirements.length ∨ 0 < a.deadlines.length then
          str "\n⚠️ **RECOMMENDATION:** Review all mandatory requirements and deadlines carefully. Consider creating a compliance checklist and calendar reminders for critical dates."
        else [])

/-- The report header: title (with `'Untitled Document'` for a falsy empty
title) and the analysis timestamp. -/
def reportHeader (title ts : Str) : Str :=
  str "**Policy Compliance Analysis Report**\nDocument: "
    ++ (if title = [] then str "Untitled Document" else title)
    ++ str "\nAnalysis Date: " ++ ts ++ str "\n\n"

/-- The seven sections following the report header, in source order. -/
def reportSections (a : Analysis) : Str :=
  mandatorySection a.mandatory_requirements
    ++ deadlinesSection a.deadlines
    ++ cappedSection (str "**🚫 PROHIBITED ACTIONS") a.prohibited_actions
    ++ cappedSection (str "**⚖️ PENALTIES & ENFORCEMENT") a.penalties
    ++ cappedSection (str "**🟡 OPTIONAL PROVISIONS") a.optional_provisions
    ++ metricsSection a.key_metrics
    ++ summarySection a

/-- `PolicyAnalysisTool._format_compliance_analysis`. -/
def formatComplianceAnalysis (a : Analysis) : Str :=
  reportHeader a.document_title a.analysis_date ++ reportSections a

/-- `PolicyAnalysisTool.analyze_compliance_requirements` (the timestamp of
`datetime.now()` is an explicit parameter). -/
def analyze_compliance_requirements (text title ts : Str) : Str :=
  formatComplianceAnalysis (analyzeRecord text title ts)

/-- The per-sentence keyword harvest of
`PolicyAnalysisTool._analyze_for_comparison`: words of length greater than
four drawn (with repetition) from the lower-cased sentences that contain a
mandatory keyword. -/
def rawMandatoryKeywords (text : Str) : List Str :=
  (splitSentences text).flatMap (fun s =>
    if anyKw mandatoryKw (lowerS s) then
      ((splitOnPred (fun c => !isWordChar c) (lowerS s)).filter (· ≠ [])).filter
        (fun w => 4 < w.length)
    else [])

/-- `list(set(mandatory_keywords))`, modelled with `dedup` (one fixed order
for the unordered Python set). -/
def mandKwList (text : Str) : List Str := (rawMandatoryKeywords text).dedup

/-- `complexity_score = len(sentences) + len(set(mandatory_keywords)) * 2`. -/
def complexityScore (text : Str) : Nat :=
  (splitSentences text).length + (rawMandatoryKeywords text).dedup.length * 2

/-- The common-requirement set `set(kw1) & set(kw2)` computed by
`compare_policies`. -/
def commonKeywords (a b : Str) : Finset Str :=
  (mandKwList a).toFinset ∩ (mandKwList b).toFinset

/-- `unique_to_1 = set(kw1) - set(kw2)`. -/
def uniqueTo1 (a b : Str) : Finset Str :=
  (mandKwList a).toFinset \ (mandKwList b).toFinset

/-- `unique_to_2 = set(kw2) - set(kw1)`. -/
def uniqueTo2 (a b : Str) : Finset Str :=
  (mandKwList b).toFinset \ (mandKwList a).toFinset

/-- `list(common_reqs)[:5]` etc. rendered in the report; the set is
materialised in `dedup` order (the Python order is hash-dependent). -/
def renderKwSet (l : List Str) : Str := joinComma (l.take 5)

/-- The advisory line of `compare_policies`. -/
def recommendLine (title : Str) : Str :=
  str "📝 **RECOMMENDATION:** " ++ title
    ++ str " appears more complex and may require additional compliance resources.\n"

/-- Everything `compare_policies` emits before the conditional
recommendation line. -/
def compareBase (t1 title1 t2 title2 ts : Str) : Str :=
  str "**Policy Comparison Report**\nPolicy A: " ++ title1
    ++ str "\nPolicy B: " ++ title2
    ++ str "\nComparison Date: " ++ ts ++ str "\n\n"
    ++ str "**MANDATORY REQUIREMENTS COMPARISON:**\n- Common requirements: "
    ++ natToStr ((mandKwList t1).filter (· ∈ mandKwList t2)).length
    ++ str " (" ++ renderKwSet ((mandKwList t1).filter (· ∈ mandKwList t2))
    ++ str ")\n- Unique to " ++ title1 ++ str ": "
    ++ natToStr ((mandKwList t1).filter (· ∉ mandKwList t2)).length
    ++ str " (" ++ renderKwSet ((mandKwList t1).filter (· ∉ mandKwList t2))
    ++ str ")\n- Unique to " ++ title2 ++ str ": "
    ++ natToStr ((mandKwList t2).filter (· ∉ mandKwList t1)).length
    ++ str " (" ++ renderKwSet ((mandKwList t2).filter (· ∉ mandKwList t1))
    ++ str ")\n\n"
    ++ str "**COMPLEXITY ANALYSIS:**\n- " ++ title1 ++ str ": "
    ++ natToStr (complexityScore t1) ++ str " complexity score\n- "
    ++ title2 ++ str ": " ++ natToStr (complexityScore t2)
    ++ str " complexity score\n\n"

/-- `PolicyAnalysisTool.compare_policies` (comparison date passed in): the
header, the keyword comparison, the complexity analysis, and the `if`/`elif`
recommendation appended at the end. -/
def compare_policies (t1 title1 t2 title2 ts : Str) : Str :=
  str "**Policy Comparison Report**\nPolicy A: " ++ title1
    ++ str "\nPolicy B: " ++ title2
    ++ str "\nComparison Date: " ++ ts ++ str "\n\n"
    ++ str "**MANDATORY REQUIREMENTS COMPARISON:**\n- Common requirements: "
    ++ natToStr ((mandKwList t1).filter (· ∈ mandKwList t2)).length
    ++ str " (" ++ renderKwSet ((mandKwList t1).filter (· ∈ mandKwList t2))
    ++ str ")\n- Unique to " ++ title1 ++ str ": "
    ++ natToStr ((mandKwList t1).filter (· ∉ mandKwList t2)).length
    ++ str " (" ++ renderKwSet ((mandKwList t1).filter (· ∉ mandKwList t2))
    ++ str ")\n- Unique to " ++ title2 ++ str ": "
    ++ natToStr ((mandKwList t2).filter (· ∉ mandKwList t1)).length
    ++ str " (" ++ renderKwSet ((mandKwList t2).filter (· ∉ mandKwList t1))
    ++ str ")\n\n"
    ++ str "**COMPLEXITY ANALYSIS:**\n- " ++ title1 ++ str ": "
    ++ natToStr (complexityScore t1) ++ str " complexity score\n- "
    ++ title2 ++ str ": " ++ natToStr (complexityScore t2)
    ++ str " complexity score\n\n"
    ++ (if complexityScore t1 > complexityScore t2 then recommendLine title1
        else if complexityScore t2 > complexityScore t1 then recommendLine title2
        else [])

/-- A character that cannot start or extend any of the three metric
patterns: ASCII, not a digit, not `$`, `%`, `.` or `,`, and not a letter
lower-casing to `e` (so no `effective` can start inside it). -/
def safeFiller (c : Char) : Prop :=
  c.toNat < 128 ∧ isDigit c = false ∧ c ≠ '$' ∧ c ≠ '%' ∧
    lowerChar c ≠ 'e' ∧ c ≠ '.' ∧ c ≠ ','

instance (c : Char) : Decidable (safeFiller c) := by
  unfold safeFiller; infer_instance

/-! ## Characterisation of the per-sentence loop -/

/-- Selector: the contribution of one sentence to `mandatory_requirements`. -/
def mSel (s : Str) : List Str :=
  if anyKw mandatoryKw (lowerS s) then [stripStr s] else []

/-- Selector: the contribution of one sentence to `optional_provisions`. -/
def oSel (s : Str) : List Str :=
  if anyKw mandatoryKw (lowerS s) = false ∧ anyKw optionalKw (lowerS s) = true
  then [stripStr s] else []

/-- Selector: the contribution of one sentence to `prohibited_actions`. -/
def pSel (s : Str) : List Str :=
  if anyKw mandatoryKw (lowerS s) = false ∧ anyKw optionalKw (lowerS s) = false
      ∧ anyKw prohibitedKw (lowerS s) = true
  then [stripStr s] else []

/-- Selector: the contribution of one sentence to `deadlines`. -/
def dSel (s : Str) : List DeadlineMatch :=
  match searchDeadline (lowerS s) with
  | some du => [⟨stripStr s, du.1 ++ ' ' :: du.2⟩]
  | none => []

/-- Selector: the contribution of one sentence to `penalties`. -/
def penSel (s : Str) : List Str :=
  if anyKw penaltyKw (lowerS s) then [stripStr s] else []

theorem processSentence_eq (a : Analysis) (s : Str) :
    processSentence a s =
      { a with
        mandatory_requirements := a.mandatory_requirements ++ mSel s,
        optional_provisions := a.optional_provisions ++ oSel s,
        prohibited_actions := a.prohibited_actions ++ pSel s,
        deadlines := a.deadlines ++ dSel s,
        penalties := a.penalties ++ penSel s } := by
  unfold processSentence mSel oSel pSel dSel penSel
  by_cases h1 : anyKw mandatoryKw (lowerS s) = true <;>
    by_cases h2 : anyKw optionalKw (lowerS s) = true <;>
      by_cases h3 : anyKw prohibitedKw (lowerS s) = true <;>
        by_cases h4 : anyKw penaltyKw (lowerS s) = true <;>
          cases hd : searchDeadline (lowerS s) <;>
            simp_all

theorem foldl_processSentence (l : List Str) (a : Analysis) :
    l.foldl processSentence a =
      { a with
        mandatory_requirements := a.mandatory_requirements ++ l.flatMap mSel,
        optional_provisions := a.optional_provisions ++ l.flatMap oSel,
        prohibited_actions := a.prohibited_actions ++ l.flatMap pSel,
        deadlines := a.deadlines ++ l.flatMap dSel,
        penalties := a.penalties ++ l.flatMap penSel } := by
  induction l generalizing a with
  | nil => simp
  | cons s t ih =>
    rw [List.foldl_cons, processSentence_eq, ih]
    simp [List.append_assoc]

/-- `analyzeRecord`, written out field by field. -/
theorem analyzeRecord_eq (text title ts : Str) :
    analyzeRecord text title ts =
      { document_title := title,
        analysis_date := ts,
        mandatory_requirements := (splitSentences text).flatMap mSel,
        optional_provisions := (splitSentences text).flatMap oSel,
        prohibited_actions := (splitSentences text).flatMap pSel,
        deadlines := (splitSentences text).flatMap dSel,
        penalties := (splitSentences text).flatMap penSel,
        key_metrics := extractMetrics text } := by
  unfold analyzeRecord
  rw [foldl_processSentence]
  simp [initAnalysis]

/-! ## Facts about stripping and sentence splitting -/

theorem dropSpaces_head (s : Str) (c : Char) (h : (dropSpaces s).head? = some c) :
    isSpaceChar c = false := by
  induction s with
  | nil => simp [dropSpaces] at h
  | cons a t ih =>
    rw [dropSpaces] at h
    by_cases ha : isSpaceChar a
    · exact ih (by simpa [ha] using h)
    · rw [if_neg ha] at h
      simp only [List.head?_cons, Option.some.injEq] at h
      subst h
      simpa using ha

theorem dropSpaces_of_head (s : Str)
    (h : ∀ c, s.head? = some c → isSpaceChar c = false) : dropSpaces s = s := by
  cases s with
  | nil => rfl
  | cons a t => simp [dropSpaces, h a (by simp)]

theorem dropSpaces_getLast (s : Str)
    (h : ∀ c, s.getLast? = some c → isSpaceChar c = false) :
    ∀ c, (dropSpaces s).getLast? = some c → isSpaceChar c = false := by
  induction s with
  | nil => exact h
  | cons a t ih =>
    intro c hc
    rw [dropSpaces] at hc
    by_cases ha : isSpaceChar a
    · rw [if_pos ha] at hc
      cases t with
      | nil => simp [dropSpaces] at hc
      | cons b u =>
        exact ih (fun d hd => h d (by rwa [List.getLast?_cons_cons])) c hc
    · rw [if_neg ha] at hc
      exact h c hc

theorem stripStr_getLast (s : Str) :
    ∀ c, (stripStr s).getLast? = some c → isSpaceChar c = false := by
  intro c hc
  unfold stripStr at hc
  rw [← List.head?_reverse, List.reverse_reverse] at hc
  exact dropSpaces_head _ c hc

theorem stripStr_head (s : Str) :
    ∀ c, (stripStr s).head? = some c → isSpaceChar c = false := by
  intro c hc
  unfold stripStr at hc
  rw [List.head?_reverse] at hc
  refine dropSpaces_getLast _ ?_ c hc
  intro d hd
  rw [← List.head?_reverse, List.reverse_reverse] at hd
  exact dropSpaces_head _ d hd

theorem stripStr_idem (s : Str) : stripStr (stripStr s) = stripStr s := by
  have h1 : dropSpaces (stripStr s) = stripStr s :=
    dropSpaces_of_head _ (stripStr_head s)
  have h2 : dropSpaces ((stripStr s).reverse) = (stripStr s).reverse := by
    refine dropSpaces_of_head _ ?_
    intro c hc
    rw [List.head?_reverse] at hc
    exact stripStr_getLast s c hc
  calc stripStr (stripStr s)
      = ((dropSpaces (stripStr s)).reverse |> dropSpaces).reverse := rfl
    _ = stripStr s := by rw [h1, h2, List.reverse_reverse]

/-- Every sentence produced by the splitter is already stripped and
non-empty (in the source: `[s.strip() for s in sentences if s.strip()]`). -/
theorem mem_splitSentences {x text : Str} (h : x ∈ splitSentences text) :
    stripStr x = x ∧ x ≠ [] := by
  unfold splitSentences at h
  rw [List.mem_filter] at h
  obtain ⟨hmem, hne⟩ := h
  rw [List.mem_map] at hmem
  obtain ⟨y, _, rfl⟩ := hmem
  exact ⟨stripStr_idem y, by simpa using hne⟩

/-- Membership in the mandatory list of the analysis record. -/
theorem mem_mandatory_iff {s text title ts : Str} :
    s ∈ (analyzeRecord text title ts).mandatory_requirements ↔
      s ∈ splitSentences text ∧ anyKw mandatoryKw (lowerS s) = true := by
  rw [analyzeRecord_eq]
  simp only [List.mem_flatMap, mSel]
  constructor
  · rintro ⟨x, hx, hs⟩
    by_cases hc : anyKw mandatoryKw (lowerS x) = true
    · rw [if_pos hc] at hs
      simp only [List.mem_singleton] at hs
      rw [(mem_splitSentences hx).1] at hs
      subst hs
      exact ⟨hx, hc⟩
    · simp [hc] at hs
  · rintro ⟨hx, hc⟩
    exact ⟨s, hx, by simp [hc, (mem_splitSentences hx).1]⟩

/-- Membership in the optional list of the analysis record. -/
theorem mem_optional_iff {s text title ts : Str} :
    s ∈ (analyzeRecord text title ts).optional_provisions ↔
      s ∈ splitSentences text ∧ anyKw mandatoryKw (lowerS s) = false
        ∧ anyKw optionalKw (lowerS s) = true := by
  rw [analyzeRecord_eq]
  simp only [List.mem_flatMap, oSel]
  constructor
  · rintro ⟨x, hx, hs⟩
    by_cases hc : anyKw mandatoryKw (lowerS x) = false
        ∧ anyKw optionalKw (lowerS x) = true
    · rw [if_pos hc] at hs
      simp only [List.mem_singleton] at hs
      rw [(mem_splitSentences hx).1] at hs
      subst hs
      exact ⟨hx, hc⟩
    · simp [if_neg hc] at hs
  · rintro ⟨hx, hc⟩
    exact ⟨s, hx, by simp [if_pos hc, (mem_splitSentences hx).1]⟩

/-- Membership in the prohibited list of the analysis record. -/
theorem mem_prohibited_iff {s text title ts : Str} :
    s ∈ (analyzeRecord text title ts).prohibited_actions ↔
      s ∈ splitSentences text ∧ anyKw mandatoryKw (lowerS s) = false
        ∧ anyKw optionalKw (lowerS s) = false
        ∧ anyKw prohibitedKw (lowerS s) = true := by
  rw [analyzeRecord_eq]
  simp only [List.mem_flatMap, pSel]
  constructor
  · rintro ⟨x, hx, hs⟩
    by_cases hc : anyKw mandatoryKw (lowerS x) = false
        ∧ anyKw optionalKw (lowerS x) = false ∧ anyKw prohibitedKw (lowerS x) = true
    · rw [if_pos hc] at hs
      simp only [List.mem_singleton] at hs
      rw [(mem_splitSentences hx).1] at hs
      subst hs
      exact ⟨hx, hc⟩
    · simp [if_neg hc] at hs
  · rintro ⟨hx, hc⟩
    exact ⟨s, hx, by simp [if_pos hc, (mem_splitSentences hx).1]⟩

/-- Membership in the penalties list of the analysis record. -/
theorem mem_penalties_iff {s text title ts : Str} :
    s ∈ (analyzeRecord text title ts).penalties ↔
      s ∈ splitSentences text ∧ anyKw penaltyKw (lowerS s) = true := by
  rw [analyzeRecord_eq]
  simp only [List.mem_flatMap, penSel]
  constructor
  · rintro ⟨x, hx, hs⟩
    by_cases hc : anyKw penaltyKw (lowerS x) = true
    · rw [if_pos hc] at hs
      simp only [List.mem_singleton] at hs
      rw [(mem_splitSentences hx).1] at hs
      subst hs
      exact ⟨hx, hc⟩
    · simp [hc] at hs
  · rintro ⟨hx, hc⟩
    exact ⟨s, hx, by simp [hc, (mem_splitSentences hx).1]⟩

/-! ## Substring monotonicity -/

theorem isPrefixB_trans {a b c : Str} (h1 : isPrefixB a b = true)
    (h2 : isPrefixB b c = true) : isPrefixB a c = true := by
  induction a generalizing b c with
  | nil => rfl
  | cons x xs ih =>
    cases b with
    | nil => simp [isPrefixB] at h1
    | cons y ys =>
      cases c with
      | nil => simp [isPrefixB] at h2
      | cons z zs =>
        simp only [isPrefixB, Bool.and_eq_true, decide_eq_true_eq] at h1 h2 ⊢
        exact ⟨h1.1.trans h2.1, ih h1.2 h2.2⟩

/-- If `p` is a prefix of `q` and `q` occurs in `s`, then `p` occurs in
`s`. -/
theorem substrB_mono {s p q : Str} (hpq : isPrefixB p q = true)
    (h : substrB s q = true) : substrB s p = true := by
  induction s with
  | nil =>
    rw [substrB] at h ⊢
    cases q with
    | nil =>
      cases p with
      | nil => rfl
      | cons x xs => cases hpq
    | cons y ys => cases h
  | cons c t ih =>
    rw [substrB, Bool.or_eq_true] at h ⊢
    rcases h with h | h
    · exact Or.inl (isPrefixB_trans hpq h)
    · exact Or.inr (ih h)

/-! ## Claim theorems -/

/-- C3: for every document text, the three primary-class sequences of the
analysis (mandatory, optional, prohibited) are pairwise disjoint — the
`if`/`elif` chain classifies each sentence into at most one of them — while
the penalties sequence is independent: the sentence
"You must pay the fine" lands in both `mandatory_requirements` and
`penalties`. -/
theorem primary_classes_disjoint (text title ts s : Str) :
    (s ∈ (analyzeRecord text title ts).mandatory_requirements →
      s ∉ (analyzeRecord text title ts).optional_provisions ∧
        s ∉ (analyzeRecord text title ts).prohibited_actions)
    ∧ (s ∈ (analyzeRecord text title ts).optional_provisions →
      s ∉ (analyzeRecord text title ts).prohibited_actions)
    ∧ ((str "You must pay the fine")
          ∈ (analyzeRecord (str "You must pay the fine.") [] []).mandatory_requirements
        ∧ (str "You must pay the fine")
          ∈ (analyzeRecord (str "You must pay the fine.") [] []).penalties) := by
  refine ⟨?_, ?_, by decide⟩
  · intro hm
    rw [mem_mandatory_iff] at hm
    constructor
    · rw [mem_optional_iff]
      rintro ⟨-, hno, -⟩
      rw [hm.2] at hno
      cases hno
    · rw [mem_prohibited_iff]
      rintro ⟨-, hno, -⟩
      rw [hm.2] at hno
      cases hno
  · intro ho
    rw [mem_optional_iff] at ho
    rw [mem_prohibited_iff]
    rintro ⟨-, -, hno, -⟩
    rw [ho.2.2] at hno
    cases hno

/-- Witness for C3 at a concrete document: "Staff must attend" is
classified mandatory, hence in neither of the other two primary classes. -/
theorem primary_classes_disjoint_witness :
    (str "Staff must attend")
        ∉ (analyzeRecord (str "Staff must attend. Staff may attend.") [] []).optional_provisions
      ∧ (str "Staff must attend")
        ∉ (analyzeRecord (str "Staff must attend. Staff may attend.") [] []).prohibited_actions :=
  (primary_classes_disjoint (str "Staff must attend. Staff may attend.") [] []
    (str "Staff must attend")).1 (by decide)

/-- C9: a sentence containing "cannot" whose lower-cased text contains no
mandatory trigger is classified into `optional_provisions` (the optional
trigger "can" is a substring of "cannot" and is tested before the
prohibited set), never into `prohibited_actions`. -/
theorem cannot_lands_optional (text title ts s : Str)
    (hmem : s ∈ splitSentences text)
    (hcannot : substrB (lowerS s) (str "cannot") = true)
    (hmand : anyKw mandatoryKw (lowerS s) = false) :
    s ∈ (analyzeRecord text title ts).optional_provisions ∧
      s ∉ (analyzeRecord text title ts).prohibited_actions := by
  have hcan : substrB (lowerS s) (str "can") = true :=
    substrB_mono (by decide) hcannot
  have hopt : anyKw optionalKw (lowerS s) = true := by
    unfold anyKw
    rw [List.any_eq_true]
    exact ⟨str "can", by decide, hcan⟩
  constructor
  · rw [mem_optional_iff]
    exact ⟨hmem, hmand, hopt⟩
  · rw [mem_prohibited_iff]
    rintro ⟨-, -, hno, -⟩
    rw [hopt] at hno
    cases hno

/-- Witness for C9: "Entities cannot proceed" goes to the optional
provisions and not to the prohibited actions. -/
theorem cannot_lands_optional_witness :
    (str "Entities cannot proceed")
        ∈ (analyzeRecord (str "Entities cannot proceed.") [] []).optional_provisions
      ∧ (str "Entities cannot proceed")
        ∉ (analyzeRecord (str "Entities cannot proceed.") [] []).prohibited_actions :=
  cannot_lands_optional (str "Entities cannot proceed.") [] []
    (str "Entities cannot proceed") (by decide) (by decide) (by decide)

theorem length_flatMap_le {α : Type} (f : Str → List α)
    (h : ∀ x, (f x).length ≤ 1) (l : List Str) :
    (l.flatMap f).length ≤ l.length := by
  induction l with
  | nil => simp
  | cons s t ih =>
    rw [List.flatMap_cons, List.length_append]
    have := h s
    simp only [List.length_cons]
    omega

/-- C10: each sentence contributes at most one `DeadlineMatch` (only the
first `within N unit` occurrence is recorded by `re.search`), so the
deadlines sequence is never longer than the sentence list; on a sentence
with two deadline phrases only the first duration is kept. -/
theorem deadlines_bounded (text title ts : Str) :
    (analyzeRecord text title ts).deadlines.length ≤ (splitSentences text).length
    ∧ (analyzeRecord (str "Act within 3 days and within 5 years.") [] []).deadlines
        = [⟨str "Act within 3 days and within 5 years", str "3 days"⟩] := by
  refine ⟨?_, by decide⟩
  rw [analyzeRecord_eq]
  refine length_flatMap_le dSel ?_ _
  intro x
  unfold dSel
  cases searchDeadline (lowerS x) <;> simp

/-- C1, counterexample: the sentence
"Entities shall not engage in prohibited transactions." is NOT classified
into `prohibited_actions`; it is classified into `mandatory_requirements`,
because the mandatory trigger "shall" occurs inside "shall not" and the
mandatory set is tested first. -/
theorem shall_not_sentence_not_prohibited :
    (analyzeRecord (str "Entities shall not engage in prohibited transactions.") [] []).prohibited_actions
        = []
      ∧ (analyzeRecord (str "Entities shall not engage in prohibited transactions.") [] []).mandatory_requirements
        = [str "Entities shall not engage in prohibited transactions"] := by
  decide

/-- C1, amended: for the input
"Entities shall not engage in prohibited transactions.", the sentence is
classified into `mandatory_requirements` (substring matching finds the
mandatory trigger "shall" inside "shall not" before the prohibited set is
ever tested), and both `optional_provisions` and `prohibited_actions` are
empty. -/
theorem shall_not_sentence_mandatory :
    (analyzeRecord (str "Entities shall not engage in prohibited transactions.") [] []).mandatory_requirements
        = [str "Entities shall not engage in prohibited transactions"]
      ∧ (analyzeRecord (str "Entities shall not engage in prohibited transactions.") [] []).optional_provisions
        = []
      ∧ (analyzeRecord (str "Entities shall not engage in prohibited transactions.") [] []).prohibited_actions
        = [] := by
  decide

/-- C4: for the input "Companies must comply within 30 days.", the
analysis has exactly that sentence (sans terminal period, as the splitter
strips it) as its one mandatory requirement, one deadline with duration
"30 days", and no prohibited actions. -/
theorem must_comply_analysis :
    (analyzeRecord (str "Companies must comply within 30 days.") [] []).mandatory_requirements
        = [str "Companies must comply within 30 days"]
      ∧ (analyzeRecord (str "Companies must comply within 30 days.") [] []).deadlines
        = [⟨str "Companies must comply within 30 days", str "30 days"⟩]
      ∧ (analyzeRecord (str "Companies must comply within 30 days.") [] []).prohibited_actions
        = [] := by
  decide

theorem analyzeRecord_title (text title ts : Str) :
    (analyzeRecord text title ts).document_title = title := by
  rw [analyzeRecord_eq]

theorem analyzeRecord_date (text title ts : Str) :
    (analyzeRecord text title ts).analysis_date = ts := by
  rw [analyzeRecord_eq]

/-- The report sections never read the title or timestamp fields. -/
theorem reportSections_mk (tA dA tB dB : Str) (m o p : List Str)
    (dl : List DeadlineMatch) (pen : List Str) (km : Metrics) :
    reportSections ⟨tA, dA, m, o, p, dl, pen, km⟩
      = reportSections ⟨tB, dB, m, o, p, dl, pen, km⟩ := rfl

theorem reportSections_timestamp (text title t1 t2 : Str) :
    reportSections (analyzeRecord text title t1)
      = reportSections (analyzeRecord text title t2) := by
  rw [analyzeRecord_eq, analyzeRecord_eq]
  exact reportSections_mk _ _ _ _ _ _ _ _ _ _

/-- C8: `analyze_compliance_requirements` is deterministic up to the
timestamp — for identical text and title, the two reports share a common
prefix and suffix around the embedded analysis-date field. -/
theorem report_deterministic_up_to_timestamp (text title t1 t2 : Str) :
    ∃ u v, analyze_compliance_requirements text title t1 = u ++ t1 ++ v
      ∧ analyze_compliance_requirements text title t2 = u ++ t2 ++ v := by
  refine ⟨str "**Policy Compliance Analysis Report**\nDocument: "
      ++ (if title = [] then str "Untitled Document" else title)
      ++ str "\nAnalysis Date: ",
    str "\n\n" ++ reportSections (analyzeRecord text title []), ?_, ?_⟩ <;>
  · unfold analyze_compliance_requirements formatComplianceAnalysis
    rw [analyzeRecord_title, analyzeRecord_date, reportSections_timestamp _ _ _ []]
    unfold reportHeader
    simp [List.append_assoc]

/-- C2, counterexample: a document with four deadline sentences exceeds the
deadline display cap of three, yet the rendered report contains no
" more" suffix anywhere — only the mandatory section ever emits one. -/
theorem deadline_truncation_silent :
    (analyzeRecord (str "Within 10 days. Within 11 days. Within 12 days. Within 13 days.")
        (str "T") (str "TS")).deadlines.length = 4
      ∧ substrB (analyze_compliance_requirements
          (str "Within 10 days. Within 11 days. Within 12 days. Within 13 days.")
          (str "T") (str "TS")) (str " more") = false := by
  decide

/-- C2, amended: only the mandatory-requirements category carries the
`... and K more` suffix; whenever its full sequence has more than five
items the report contains the line `... and K more` with `5 + K` equal to
the total count, while the other categories (capped at three) truncate
silently. -/
theorem mandatory_more_suffix (text title ts : Str)
    (h : 5 < (analyzeRecord text title ts).mandatory_requirements.length) :
    ∃ u v, analyze_compliance_requirements text title ts
      = u ++ (str "... and "
          ++ natToStr ((analyzeRecord text title ts).mandatory_requirements.length - 5)
          ++ str " more\n") ++ v
      ∧ 5 + ((analyzeRecord text title ts).mandatory_requirements.length - 5)
          = (analyzeRecord text title ts).mandatory_requirements.length := by
  have hfive : 5 + ((analyzeRecord text title ts).mandatory_requirements.length - 5)
      = (analyzeRecord text title ts).mandatory_requirements.length := by omega
  have hne : (analyzeRecord text title ts).mandatory_requirements.isEmpty = false := by
    rw [List.isEmpty_eq_false]
    intro heq
    rw [heq] at h
    simp at h
  refine ⟨reportHeader (analyzeRecord text title ts).document_title
        (analyzeRecord text title ts).analysis_date
      ++ (str "**🔴 MANDATORY REQUIREMENTS ("
        ++ natToStr (analyzeRecord text title ts).mandatory_requirements.length
        ++ str "):**\n"
        ++ numberedItems 200 1 ((analyzeRecord text title ts).mandatory_requirements.take 5)),
    ['\n']
      ++ (deadlinesSection (analyzeRecord text title ts).deadlines
        ++ cappedSection (str "**🚫 PROHIBITED ACTIONS")
            (analyzeRecord text title ts).prohibited_actions
        ++ cappedSection (str "**⚖️ PENALTIES & ENFORCEMENT")
            (analyzeRecord text title ts).penalties
        ++ cappedSection (str "**🟡 OPTIONAL PROVISIONS")
            (analyzeRecord text title ts).optional_provisions
        ++ metricsSection (analyzeRecord text title ts).key_metrics
        ++ summarySection (analyzeRecord text title ts)), ?_, hfive⟩
  unfold analyze_compliance_requirements formatComplianceAnalysis reportSections
    mandatorySection
  rw [hne]
  simp only [Bool.false_eq_true, if_false, if_pos h]
  simp [List.append_assoc]

/-- Witness for C2 (amended form) at a document with six mandatory
sentences: the report contains the `... and 1 more` line. -/
theorem mandatory_more_suffix_witness :
    ∃ u v, analyze_compliance_requirements
        (str "A must act. B must act. C must act. D must act. E must act. F must act.")
        (str "T") (str "TS")
      = u ++ (str "... and "
          ++ natToStr ((analyzeRecord
              (str "A must act. B must act. C must act. D must act. E must act. F must act.")
              (str "T") (str "TS")).mandatory_requirements.length - 5)
          ++ str " more\n") ++ v
      ∧ 5 + ((analyzeRecord
            (str "A must act. B must act. C must act. D must act. E must act. F must act.")
            (str "T") (str "TS")).mandatory_requirements.length - 5)
          = (analyzeRecord
              (str "A must act. B must act. C must act. D must act. E must act. F must act.")
              (str "T") (str "TS")).mandatory_requirements.length :=
  mandatory_more_suffix
    (str "A must act. B must act. C must act. D must act. E must act. F must act.")
    (str "T") (str "TS") (by decide)

/-! ## Whitespace-only input -/

theorem isSpaceChar_cases {c : Char} (h : isSpaceChar c = true) :
    c = ' ' ∨ c = '\t' ∨ c = '\n' ∨ c = '\x0d' ∨ c = '\x0b' ∨ c = '\x0c' := by
  have h' := h
  simp only [isSpaceChar, Bool.or_eq_true, decide_eq_true_eq] at h'
  tauto

theorem space_not_term {c : Char} (h : isSpaceChar c = true) :
    isTerm c = false := by
  rcases isSpaceChar_cases h with h | h | h | h | h | h <;> subst h <;> rfl

theorem space_not_digit {c : Char} (h : isSpaceChar c = true) :
    isDigit c = false := by
  rcases isSpaceChar_cases h with h | h | h | h | h | h <;> subst h <;> rfl

theorem space_ne_dollar {c : Char} (h : isSpaceChar c = true) : c ≠ '$' := by
  rcases isSpaceChar_cases h with h | h | h | h | h | h <;> subst h <;> decide

theorem space_lower_ne_e {c : Char} (h : isSpaceChar c = true) :
    lowerChar c ≠ 'e' := by
  rcases isSpaceChar_cases h with h | h | h | h | h | h <;> subst h <;> decide

theorem splitOnPred_nodelim (p : Char → Bool) (text : Str)
    (h : ∀ c ∈ text, p c = false) : splitOnPred p text = [text] := by
  induction text with
  | nil => rfl
  | cons c t ih =>
    rw [splitOnPred, ih (fun d hd => h d (List.mem_cons_of_mem c hd))]
    simp [h c (List.mem_cons_self c t)]

theorem dropSpaces_all_space (s : Str) (h : ∀ c ∈ s, isSpaceChar c = true) :
    dropSpaces s = [] := by
  induction s with
  | nil => rfl
  | cons c t ih =>
    rw [dropSpaces, if_pos (h c (List.mem_cons_self c t))]
    exact ih (fun d hd => h d (List.mem_cons_of_mem c hd))

theorem stripStr_all_space (s : Str) (h : ∀ c ∈ s, isSpaceChar c = true) :
    stripStr s = [] := by
  unfold stripStr
  rw [dropSpaces_all_space s h]
  rfl

theorem splitSentences_all_space (text : Str)
    (h : ∀ c ∈ text, isSpaceChar c = true) : splitSentences text = [] := by
  unfold splitSentences
  rw [splitOnPred_nodelim _ _ (fun c hc => space_not_term (h c hc))]
  simp [stripStr_all_space text h]

theorem matchPercentAt_not_digit {c : Char} {t : Str} (h : isDigit c = false) :
    matchPercentAt (c :: t) = none := by
  unfold matchPercentAt
  simp [List.takeWhile_cons, h]

theorem matchDollarAt_not_dollar {c : Char} {t : Str} (h : c ≠ '$') :
    matchDollarAt (c :: t) = none := by
  unfold matchDollarAt
  simp [h]

theorem matchEffectiveAt_not_e {c : Char} {t : Str} (h : lowerChar c ≠ 'e') :
    matchEffectiveAt (c :: t) = none := by
  have he : str "effective" = 'e' :: str "ffective" := rfl
  unfold matchEffectiveAt
  rw [he, dropPrefixCI, if_neg h]

theorem scanAllAux_all_none (m : Str → Option (Str × Str))
    (viable : Char → Bool)
    (hm : ∀ c t, viable c = false → m (c :: t) = none) :
    ∀ (fuel : Nat) (s : Str), (∀ c ∈ s, viable c = false) →
      scanAllAux m fuel s = [] := by
  intro fuel
  induction fuel with
  | zero => intro s _; rfl
  | succ f ih =>
    intro s h
    cases s with
    | nil => rfl
    | cons c t =>
      rw [scanAllAux, hm c t (h c (List.mem_cons_self c t))]
      exact ih t (fun d hd => h d (List.mem_cons_of_mem c hd))

theorem extractMetrics_all_space (text : Str)
    (h : ∀ c ∈ text, isSpaceChar c = true) :
    extractMetrics text = ⟨[], [], []⟩ := by
  unfold extractMetrics scanAll
  rw [scanAllAux_all_none matchPercentAt isDigit
      (fun c t hc => matchPercentAt_not_digit hc) _ _
      (fun c hc => space_not_digit (h c hc)),
    scanAllAux_all_none matchDollarAt (fun c => decide (c = '$'))
      (fun c t hc => matchDollarAt_not_dollar (by simpa using hc)) _ _
      (fun c hc => by simp [space_ne_dollar (h c hc)]),
    scanAllAux_all_none matchEffectiveAt (fun c => decide (lowerChar c = 'e'))
      (fun c t hc => matchEffectiveAt_not_e (by simpa using hc)) _ _
      (fun c hc => by simp [space_lower_ne_e (h c hc)])]
  rfl

theorem reportSections_init (title ts : Str) :
    reportSections (initAnalysis title ts)
      = str "**📋 COMPLIANCE SUMMARY:**\n- 0 mandatory requirements identified\n- 0 critical deadlines found\n- 0 penalty provisions noted\n" := by
  have h0 : reportSections (initAnalysis title ts)
      = reportSections (initAnalysis [] []) :=
    reportSections_mk title ts [] [] [] [] [] [] [] ⟨[], [], []⟩
  rw [h0]
  decide

/-- C6: on empty or whitespace-only input the analyzer returns the
well-formed empty report — the analysis record equals the freshly
initialised one, every category section is absent, and the report is just
the header followed by the summary with all three counts at zero and no
recommendation line. -/
theorem empty_input_report (text title ts : Str)
    (h : ∀ c ∈ text, isSpaceChar c = true) :
    analyzeRecord text title ts = initAnalysis title ts
    ∧ analyze_compliance_requirements text title ts
        = reportHeader title ts
          ++ str "**📋 COMPLIANCE SUMMARY:**\n- 0 mandatory requirements identified\n- 0 critical deadlines found\n- 0 penalty provisions noted\n" := by
  have hrec : analyzeRecord text title ts = initAnalysis title ts := by
    rw [analyzeRecord_eq, splitSentences_all_space text h,
      extractMetrics_all_space text h]
    rfl
  refine ⟨hrec, ?_⟩
  unfold analyze_compliance_requirements formatComplianceAnalysis
  rw [hrec]
  have h1 : (initAnalysis title ts).document_title = title := rfl
  have h2 : (initAnalysis title ts).analysis_date = ts := rfl
  rw [h1, h2, reportSections_init]

/-- Witness for C6: the literal empty document with title "Empty Doc". -/
theorem empty_input_report_witness :
    analyzeRecord [] (str "Empty Doc") (str "2024-01-01 00:00:00")
        = initAnalysis (str "Empty Doc") (str "2024-01-01 00:00:00")
      ∧ analyze_compliance_requirements [] (str "Empty Doc") (str "2024-01-01 00:00:00")
        = reportHeader (str "Empty Doc") (str "2024-01-01 00:00:00")
          ++ str "**📋 COMPLIANCE SUMMARY:**\n- 0 mandatory requirements identified\n- 0 critical deadlines found\n- 0 penalty provisions noted\n" :=
  empty_input_report [] (str "Empty Doc") (str "2024-01-01 00:00:00")
    (by decide)

/-- C7: the comparator is symmetric in its two documents — the
common-keyword set is commutative and the two unique-keyword set
differences swap when the arguments swap — and the advisory line is
appended exactly for the side with the strictly higher complexity score,
with nothing appended on a tie. -/
theorem compare_policies_symmetric (tA titleA tB titleB ts : Str) :
    commonKeywords tA tB = commonKeywords tB tA
    ∧ uniqueTo1 tA tB = uniqueTo2 tB tA
    ∧ uniqueTo2 tA tB = uniqueTo1 tB tA
    ∧ (complexityScore tB < complexityScore tA →
        compare_policies tA titleA tB titleB ts
          = compareBase tA titleA tB titleB ts ++ recommendLine titleA)
    ∧ (complexityScore tA < complexityScore tB →
        compare_policies tA titleA tB titleB ts
          = compareBase tA titleA tB titleB ts ++ recommendLine titleB)
    ∧ (complexityScore tA = complexityScore tB →
        compare_policies tA titleA tB titleB ts
          = compareBase tA titleA tB titleB ts) := by
  refine ⟨Finset.inter_comm _ _, rfl, rfl, ?_, ?_, ?_⟩ <;>
    intro h <;>
      unfold compare_policies compareBase <;>
        simp only [List.append_assoc]
  · rw [if_pos h]
  · rw [if_neg (by omega), if_pos h]
  · rw [if_neg (by omega), if_neg (by omega), List.append_nil]

/-- Witness for C7: a document with mandatory keywords against the empty
document; its complexity score is strictly higher, so the recommendation
names its title. -/
theorem compare_policies_symmetric_witness :
    commonKeywords (str "Staff must attend meetings.") []
        = commonKeywords [] (str "Staff must attend meetings.")
      ∧ compare_policies (str "Staff must attend meetings.") (str "A") [] (str "B") (str "TS")
        = compareBase (str "Staff must attend meetings.") (str "A") [] (str "B") (str "TS")
          ++ recommendLine (str "A") :=
  ⟨(compare_policies_symmetric (str "Staff must attend meetings.") (str "A") [] (str "B")
      (str "TS")).1,
    (compare_policies_symmetric (str "Staff must attend meetings.") (str "A") [] (str "B")
      (str "TS")).2.2.2.1 (by decide)⟩

/-! ## Metric extraction on decomposed documents -/

theorem takeWhile_all_append (p : Char → Bool) (d : Str)
    (hd : ∀ c ∈ d, p c = true) (x : Char) (hx : p x = false) (t : Str) :
    (d ++ x :: t).takeWhile p = d ∧ (d ++ x :: t).dropWhile p = x :: t := by
  induction d with
  | nil => simp [List.takeWhile_cons, List.dropWhile_cons, hx]
  | cons a d' ih =>
    obtain ⟨ht, hdr⟩ := ih (fun c hc => hd c (List.mem_cons_of_mem a hc))
    refine ⟨?_, ?_⟩
    · rw [List.cons_append, List.takeWhile_cons,
        if_pos (hd a (List.mem_cons_self a d')), ht]
    · rw [List.cons_append, List.dropWhile_cons,
        if_pos (hd a (List.mem_cons_self a d')), hdr]

theorem head_dropWhile_safe (q : Str) (hq : ∀ c ∈ q, safeFiller c)
    (x : Char) (hx : isSpaceChar x = false) (hxp : x ≠ '%') (X : Str) :
    ∀ c, ((q ++ x :: X).dropWhile isSpaceChar).head? = some c → c ≠ '%' := by
  induction q with
  | nil =>
    intro c hc
    rw [List.nil_append, List.dropWhile_cons, if_neg (by simp [hx])] at hc
    simp only [List.head?_cons, Option.some.injEq] at hc
    subst hc
    exact hxp
  | cons a q' ih =>
    intro c hc
    rw [List.cons_append, List.dropWhile_cons] at hc
    by_cases ha : isSpaceChar a = true
    · rw [if_pos ha] at hc
      exact ih (fun d hd => hq d (List.mem_cons_of_mem a hd)) c hc
    · rw [if_neg ha] at hc
      simp only [List.head?_cons, Option.some.injEq] at hc
      subst hc
      exact (hq a (List.mem_cons_self a q')).2.2.2.1

/-- The percentage matcher fails on a maximal digit run followed by a
comma. -/
theorem matchPercentAt_digits_comma (d : Str) (hne : d ≠ [])
    (hd : ∀ c ∈ d, isDigit c = true) (X : Str) :
    matchPercentAt (d ++ ',' :: X) = none := by
  obtain ⟨htake, hdrop⟩ := takeWhile_all_append isDigit d hd ',' (by decide) X
  unfold matchPercentAt
  rw [htake, hdrop, if_neg (by simpa [List.isEmpty_iff] using hne)]
  simp only
  rw [if_neg (fun hand => absurd hand.1 (by decide))]
  rfl

/-- The percentage matcher fails on a maximal digit run followed by a
non-dot character after which no `%` can follow the optional spaces. -/
theorem matchPercentAt_digits_safe (d : Str) (hne : d ≠ [])
    (hd : ∀ c ∈ d, isDigit c = true) (x : Char) (t : Str)
    (hx : isDigit x = false) (hdot : x ≠ '.')
    (hpct : ∀ c, ((x :: t).dropWhile isSpaceChar).head? = some c → c ≠ '%') :
    matchPercentAt (d ++ x :: t) = none := by
  obtain ⟨htake, hdrop⟩ := takeWhile_all_append isDigit d hd x hx t
  unfold matchPercentAt
  rw [htake, hdrop, if_neg (by simpa [List.isEmpty_iff] using hne)]
  simp only
  rw [if_neg (by simp [hdot])]
  cases hr3 : (x :: t).dropWhile isSpaceChar with
  | nil => simp [hr3]
  | cons c r4 =>
    have : c ≠ '%' := hpct c (by rw [hr3]; rfl)
    simp [hr3, this]

/-- The percentage matcher fails anywhere in a string containing no `%`. -/
theorem matchPercentAt_no_pct {s : Str} (h : '%' ∉ s) :
    matchPercentAt s = none := by
  unfold matchPercentAt
  by_cases h0 : (s.takeWhile isDigit).isEmpty = true
  · rw [if_pos h0]
  · rw [if_neg h0]
    cases hr1 : s.dropWhile isDigit with
    | nil => simp
    | cons c r1' =>
      have hsubr1 : ∀ a, a ∈ c :: r1' → a ∈ s := fun a ha =>
        (List.dropWhile_sublist isDigit).subset (hr1 ▸ ha)
      simp only
      by_cases hc : c = '.' ∧ ¬(r1'.takeWhile isDigit).isEmpty = true
      · rw [if_pos hc]
        cases hr3 : (r1'.dropWhile isDigit).dropWhile isSpaceChar with
        | nil => simp [hr3]
        | cons e r4 =>
          have he : e ∈ s := by
            have h1 : e ∈ (r1'.dropWhile isDigit).dropWhile isSpaceChar := by
              rw [hr3]; exact List.mem_cons_self e r4
            have h2 : e ∈ r1' :=
              (List.dropWhile_sublist isDigit).subset
                ((List.dropWhile_sublist isSpaceChar).subset h1)
            exact hsubr1 e (List.mem_cons_of_mem c h2)
          have hne : e ≠ '%' := fun heq => h (heq ▸ he)
          simp [hr3, hne]
      · rw [if_neg hc]
        cases hr3 : (c :: r1').dropWhile isSpaceChar with
        | nil => simp [hr3]
        | cons e r4 =>
          have he : e ∈ s := hsubr1 e
            ((List.dropWhile_sublist isSpaceChar).subset
              (by rw [hr3]; exact List.mem_cons_self e r4))
          have hne : e ≠ '%' := fun heq => h (heq ▸ he)
          simp [hr3, hne]

/-- The percentage matcher at the `50%` occurrence. -/
theorem matchPercentAt_entry (X : Str) :
    matchPercentAt ('5' :: '0' :: '%' :: X) = some (str "50", X) := rfl

/-- `(,\d{3})*` consumes nothing at a non-comma head. -/
theorem matchCommaGroups_not_comma (x : Char) (t : Str) (hx : x ≠ ',') :
    matchCommaGroups (x :: t) = ([], x :: t) := by
  rcases t with _ | ⟨a, _ | ⟨b, _ | ⟨d, rest⟩⟩⟩ <;>
    simp [matchCommaGroups, hx]

/-- The dollar matcher at the `$10,000` occurrence, followed by a character
that can neither extend the comma groups nor start the cents part. -/
theorem matchDollarAt_entry (x : Char) (t : Str) (hc : x ≠ ',') (hd : x ≠ '.') :
    matchDollarAt ('$' :: '1' :: '0' :: ',' :: '0' :: '0' :: '0' :: x :: t)
      = some (str "10,000", x :: t) := by
  have hgr : matchCommaGroups (',' :: '0' :: '0' :: '0' :: x :: t)
      = ((',' :: '0' :: '0' :: '0' :: [] : Str), x :: t) := by
    rw [show matchCommaGroups (',' :: '0' :: '0' :: '0' :: x :: t)
        = (',' :: '0' :: '0' :: '0' :: (matchCommaGroups (x :: t)).1,
            (matchCommaGroups (x :: t)).2) from rfl,
      matchCommaGroups_not_comma x t hc]
  have key : matchDollarAt ('$' :: '1' :: '0' :: ',' :: '0' :: '0' :: '0' :: x :: t)
      = (let gr := matchCommaGroups (',' :: '0' :: '0' :: '0' :: x :: t)
         let ce :=
           match gr.2 with
           | d :: a :: b :: rest =>
             if d = '.' ∧ isDigit a = true ∧ isDigit b = true then (([d, a, b] : Str), rest)
             else (([] : Str), gr.2)
           | _ => (([] : Str), gr.2)
         some ((str "10") ++ gr.1 ++ ce.1, ce.2)) := rfl
  rw [key]
  simp only [hgr]
  rcases t with _ | ⟨a, _ | ⟨b, rest⟩⟩
  · rfl
  · rfl
  · simp [hd, str]

/-- The effective-date matcher at the
`effective on January 1, 2024` occurrence. -/
theorem matchEffectiveAt_entry (w : Str) :
    matchEffectiveAt (str "effective on January 1, 2024" ++ w)
      = some (str "January 1, 2024", w) := rfl

theorem scanAllAux_step_none (m : Str → Option (Str × Str)) (fuel : Nat)
    (c : Char) (t : Str) (h : m (c :: t) = none) :
    scanAllAux m (fuel + 1) (c :: t) = scanAllAux m fuel t := by
  rw [scanAllAux, h]

theorem scanAllAux_step_some (m : Str → Option (Str × Str)) (fuel : Nat)
    (c : Char) (t : Str) (cap r : Str) (h : m (c :: t) = some (cap, r)) :
    scanAllAux m (fuel + 1) (c :: t) = cap :: scanAllAux m fuel r := by
  rw [scanAllAux, h]

/-- Skipping a region in which the matcher fails at every position costs
one unit of fuel per character. -/
theorem scanAllAux_skip_region (m : Str → Option (Str × Str))
    (viable : Char → Bool)
    (hv : ∀ c t, viable c = false → m (c :: t) = none) :
    ∀ (filler rest : Str) (fuel : Nat), (∀ c ∈ filler, viable c = false) →
      scanAllAux m (filler.length + fuel) (filler ++ rest)
        = scanAllAux m fuel rest := by
  intro filler
  induction filler with
  | nil => intro rest fuel _; simp
  | cons c f' ih =>
    intro rest fuel hf
    have harith : (c :: f').length + fuel = (f'.length + fuel) + 1 := by
      rw [List.length_cons]; omega
    rw [harith, List.cons_append,
      scanAllAux_step_none m _ c (f' ++ rest)
        (hv c (f' ++ rest) (hf c (List.mem_cons_self c f'))),
      ih rest fuel (fun d hd => hf d (List.mem_cons_of_mem c hd))]

/-- The percentage scan of a string containing no `%` finds nothing. -/
theorem scanAllAux_no_pct :
    ∀ (fuel : Nat) (s : Str), '%' ∉ s →
      scanAllAux matchPercentAt fuel s = [] := by
  intro fuel
  induction fuel with
  | zero => intro s _; rfl
  | succ f ih =>
    intro s h
    cases s with
    | nil => rfl
    | cons c t =>
      rw [scanAllAux_step_none matchPercentAt f c t (matchPercentAt_no_pct h)]
      exact ih t (fun hm => h (List.mem_cons_of_mem c hm))

/-- The percentage scan over the decomposed document finds exactly the
capture `50`. -/
theorem scan_percent_decomposed (p q r w : Str)
    (hp : ∀ c ∈ p, safeFiller c) (hq : ∀ c ∈ q, safeFiller c)
    (hr : ∀ c ∈ r, safeFiller c) (hw : ∀ c ∈ w, safeFiller c)
    (hq0 : q ≠ []) :
    scanAll matchPercentAt (p ++ str "$10,000" ++ q ++ str "50%" ++ r
        ++ str "effective on January 1, 2024" ++ w) = [str "50"] := by
  rcases q with _ | ⟨qc, q2⟩
  · exact absurd rfl hq0
  have hqc := hq qc (List.mem_cons_self qc q2)
  have hq2 : ∀ c ∈ q2, safeFiller c := fun c hc => hq c (List.mem_cons_of_mem qc hc)
  have hT : p ++ str "$10,000" ++ (qc :: q2) ++ str "50%" ++ r
        ++ str "effective on January 1, 2024" ++ w
      = p ++ ('$' :: '1' :: '0' :: ',' :: '0' :: '0' :: '0' ::
          ((qc :: q2) ++ ('5' :: '0' :: '%' ::
            (r ++ (str "effective on January 1, 2024" ++ w))))) := by
    simp only [List.append_assoc]
    rfl
  have hno : '%' ∉ r ++ (str "effective on January 1, 2024" ++ w) := by
    intro hm
    rcases List.mem_append.mp hm with hm | hm
    · exact (hr '%' hm).2.2.2.1 rfl
    rcases List.mem_append.mp hm with hm | hm
    · revert hm
      decide
    · exact (hw '%' hm).2.2.2.1 rfl
  have hpct : ∀ c, (((qc :: q2) ++ '5' :: '0' :: '%' ::
        (r ++ (str "effective on January 1, 2024" ++ w))).dropWhile
          isSpaceChar).head? = some c → c ≠ '%' :=
    head_dropWhile_safe (qc :: q2) hq '5' (by decide) (by decide) _
  have h1 : matchPercentAt ('$' :: '1' :: '0' :: ',' :: '0' :: '0' :: '0' ::
      ((qc :: q2) ++ ('5' :: '0' :: '%' ::
        (r ++ (str "effective on January 1, 2024" ++ w))))) = none :=
    matchPercentAt_not_digit (by decide)
  have h2 : matchPercentAt ('1' :: '0' :: ',' :: '0' :: '0' :: '0' ::
      ((qc :: q2) ++ ('5' :: '0' :: '%' ::
        (r ++ (str "effective on January 1, 2024" ++ w))))) = none :=
    matchPercentAt_digits_comma ['1', '0'] (by decide) (by decide) _
  have h3 : matchPercentAt ('0' :: ',' :: '0' :: '0' :: '0' ::
      ((qc :: q2) ++ ('5' :: '0' :: '%' ::
        (r ++ (str "effective on January 1, 2024" ++ w))))) = none :=
    matchPercentAt_digits_comma ['0'] (by decide) (by decide) _
  have h4 : matchPercentAt (',' :: '0' :: '0' :: '0' ::
      ((qc :: q2) ++ ('5' :: '0' :: '%' ::
        (r ++ (str "effective on January 1, 2024" ++ w))))) = none :=
    matchPercentAt_not_digit (by decide)
  have h5 : matchPercentAt ('0' :: '0' :: '0' ::
      ((qc :: q2) ++ ('5' :: '0' :: '%' ::
        (r ++ (str "effective on January 1, 2024" ++ w))))) = none :=
    matchPercentAt_digits_safe ['0', '0', '0'] (by decide) (by decide) qc _
      hqc.2.1 hqc.2.2.2.2.2.1 hpct
  have h6 : matchPercentAt ('0' :: '0' ::
      ((qc :: q2) ++ ('5' :: '0' :: '%' ::
        (r ++ (str "effective on January 1, 2024" ++ w))))) = none :=
    matchPercentAt_digits_safe ['0', '0'] (by decide) (by decide) qc _
      hqc.2.1 hqc.2.2.2.2.2.1 hpct
  have h7 : matchPercentAt ('0' ::
      ((qc :: q2) ++ ('5' :: '0' :: '%' ::
        (r ++ (str "effective on January 1, 2024" ++ w))))) = none :=
    matchPercentAt_digits_safe ['0'] (by decide) (by decide) qc _
      hqc.2.1 hqc.2.2.2.2.2.1 hpct
  unfold scanAll
  rw [hT, List.length_append,
    scanAllAux_skip_region matchPercentAt isDigit
      (fun c t hc => matchPercentAt_not_digit hc) p _ _
      (fun c hc => (hp c hc).2.1),
    List.length_cons, scanAllAux_step_none _ _ _ _ h1,
    List.length_cons, scanAllAux_step_none _ _ _ _ h2,
    List.length_cons, scanAllAux_step_none _ _ _ _ h3,
    List.length_cons, scanAllAux_step_none _ _ _ _ h4,
    List.length_cons, scanAllAux_step_none _ _ _ _ h5,
    List.length_cons, scanAllAux_step_none _ _ _ _ h6,
    List.length_cons, scanAllAux_step_none _ _ _ _ h7,
    List.length_append,
    scanAllAux_skip_region matchPercentAt isDigit
      (fun c t hc => matchPercentAt_not_digit hc) (qc :: q2) _ _
      (fun c hc => (hq c hc).2.1),
    List.length_cons, scanAllAux_step_some _ _ _ _ _ _ (matchPercentAt_entry _),
    scanAllAux_no_pct _ _ hno]

/-- The dollar scan over the decomposed document finds exactly the capture
`10,000`. -/
theorem scan_dollar_decomposed (p q r w : Str)
    (hp : ∀ c ∈ p, safeFiller c) (hq : ∀ c ∈ q, safeFiller c)
    (hr : ∀ c ∈ r, safeFiller c) (hw : ∀ c ∈ w, safeFiller c)
    (hq0 : q ≠ []) :
    scanAll matchDollarAt (p ++ str "$10,000" ++ q ++ str "50%" ++ r
        ++ str "effective on January 1, 2024" ++ w) = [str "10,000"] := by
  rcases q with _ | ⟨qc, q2⟩
  · exact absurd rfl hq0
  have hqc := hq qc (List.mem_cons_self qc q2)
  have hT : p ++ str "$10,000" ++ (qc :: q2) ++ str "50%" ++ r
        ++ str "effective on January 1, 2024" ++ w
      = p ++ ('$' :: '1' :: '0' :: ',' :: '0' :: '0' :: '0' :: qc ::
          (q2 ++ (str "50%" ++
            (r ++ (str "effective on January 1, 2024" ++ w))))) := by
    simp only [List.append_assoc]
    rfl
  have hv : ∀ c t, decide (c = '$') = false → matchDollarAt (c :: t) = none :=
    fun c t hc => matchDollarAt_not_dollar (by simpa using hc)
  have htail : ∀ c ∈ qc :: (q2 ++ (str "50%" ++
      (r ++ (str "effective on January 1, 2024" ++ w)))),
      decide (c = '$') = false := by
    have h50 : ∀ c ∈ str "50%", c ≠ '$' := by decide
    have hEf : ∀ c ∈ str "effective on January 1, 2024", c ≠ '$' := by decide
    intro c hc
    rcases List.mem_cons.mp hc with rfl | hc
    · simpa using hqc.2.2.1
    rcases List.mem_append.mp hc with hc | hc
    · simpa using (hq c (List.mem_cons_of_mem qc hc)).2.2.1
    rcases List.mem_append.mp hc with hc | hc
    · simpa using h50 c hc
    rcases List.mem_append.mp hc with hc | hc
    · simpa using (hr c hc).2.2.1
    rcases List.mem_append.mp hc with hc | hc
    · simpa using hEf c hc
    · simpa using (hw c hc).2.2.1
  unfold scanAll
  rw [hT, List.length_append,
    scanAllAux_skip_region matchDollarAt (fun c => decide (c = '$')) hv p _ _
      (fun c hc => by simpa using (hp c hc).2.2.1),
    List.length_cons,
    scanAllAux_step_some _ _ _ _ _ _
      (matchDollarAt_entry qc _ hqc.2.2.2.2.2.2 hqc.2.2.2.2.2.1),
    scanAllAux_all_none matchDollarAt (fun c => decide (c = '$')) hv _ _ htail]

/-- The effective-date scan over the decomposed document finds exactly the
capture `January 1, 2024`. -/
theorem scan_effective_decomposed (p q r w : Str)
    (hp : ∀ c ∈ p, safeFiller c) (hq : ∀ c ∈ q, safeFiller c)
    (hr : ∀ c ∈ r, safeFiller c) (hw : ∀ c ∈ w, safeFiller c) :
    scanAll matchEffectiveAt (p ++ str "$10,000" ++ q ++ str "50%" ++ r
        ++ str "effective on January 1, 2024" ++ w)
      = [str "January 1, 2024"] := by
  have hT : p ++ str "$10,000" ++ q ++ str "50%" ++ r
        ++ str "effective on January 1, 2024" ++ w
      = (p ++ (str "$10,000" ++ (q ++ (str "50%" ++ r))))
          ++ ('e' :: (str "ffective on January 1, 2024" ++ w)) := by
    simp only [List.append_assoc]
    rfl
  have hv : ∀ c t, decide (lowerChar c = 'e') = false →
      matchEffectiveAt (c :: t) = none :=
    fun c t hc => matchEffectiveAt_not_e (by simpa using hc)
  have hfiller : ∀ c ∈ p ++ (str "$10,000" ++ (q ++ (str "50%" ++ r))),
      decide (lowerChar c = 'e') = false := by
    have hD : ∀ c ∈ str "$10,000", lowerChar c ≠ 'e' := by decide
    have h50 : ∀ c ∈ str "50%", lowerChar c ≠ 'e' := by decide
    intro c hc
    rcases List.mem_append.mp hc with hc | hc
    · simpa using (hp c hc).2.2.2.2.1
    rcases List.mem_append.mp hc with hc | hc
    · simpa using hD c hc
    rcases List.mem_append.mp hc with hc | hc
    · simpa using (hq c hc).2.2.2.2.1
    rcases List.mem_append.mp hc with hc | hc
    · simpa using h50 c hc
    · simpa using (hr c hc).2.2.2.2.1
  have hE : matchEffectiveAt ('e' :: (str "ffective on January 1, 2024" ++ w))
      = some (str "January 1, 2024", w) := matchEffectiveAt_entry w
  unfold scanAll
  rw [hT, List.length_append,
    scanAllAux_skip_region matchEffectiveAt (fun c => decide (lowerChar c = 'e'))
      hv _ _ _ hfiller,
    List.length_cons,
    scanAllAux_step_some _ _ _ _ _ _ hE,
    scanAllAux_all_none matchEffectiveAt (fun c => decide (lowerChar c = 'e'))
      hv _ _ (fun c hc => by simpa using (hw c hc).2.2.2.2.1)]

/-- C5: for any document of the form
`p ++ "$10,000" ++ q ++ "50%" ++ r ++ "effective on January 1, 2024" ++ w`
whose filler regions contain no character that could start or extend one of
the three metric patterns (and whose `q` separator is non-empty, keeping
the dollar digits and the percentage apart), the whole-document scan
collects exactly `dollar_amounts = ["$10,000"]`, `percentages = ["50%"]`
and `effective_dates = ["January 1, 2024"]`, each list preserving order of
(here: single) occurrence. -/
theorem metrics_bundle (p q r w : Str)
    (hp : ∀ c ∈ p, safeFiller c) (hq : ∀ c ∈ q, safeFiller c)
    (hr : ∀ c ∈ r, safeFiller c) (hw : ∀ c ∈ w, safeFiller c)
    (hq0 : q ≠ []) :
    extractMetrics (p ++ str "$10,000" ++ q ++ str "50%" ++ r
        ++ str "effective on January 1, 2024" ++ w)
      = { percentages := [str "50%"], dollar_amounts := [str "$10,000"],
          effective_dates := [str "January 1, 2024"] } := by
  unfold extractMetrics
  rw [scan_percent_decomposed p q r w hp hq hr hw hq0,
    scan_dollar_decomposed p q r w hp hq hr hw hq0,
    scan_effective_decomposed p q r w hp hq hr hw]
  rfl

/-- Witness for C5 at the concrete document
"Pay $10,000 which is 50% effective on January 1, 2024 to all". -/
theorem metrics_bundle_witness :
    extractMetrics (str "Pay " ++ str "$10,000" ++ str " which is "
        ++ str "50%" ++ str " " ++ str "effective on January 1, 2024"
        ++ str " to all")
      = { percentages := [str "50%"], dollar_amounts := [str "$10,000"],
          effective_dates := [str "January 1, 2024"] } :=
  metrics_bundle (str "Pay ") (str " which is ") (str " ") (str " to all")
    (by decide) (by decide) (by decide) (by decide) (by decide)

end PolicyAnalysis
